import Mathlib

/-!
Verification of the container-orchestration core of `cross` against its
natural-language specification.

The development shallowly embeds the relevant Rust functions from
`src/docker.rs`, `src/docker/remote.rs`, `src/docker/shared.rs` and
`src/commands/containers.rs` as Lean definitions:

* filesystem paths are modelled as canonical component lists
  (`List String`), whose displayed form is `/c0/c1/...`;
* machine bytes are modelled as `Nat` values below 256 and 32-bit words
  as `Nat` values reduced modulo `2 ^ 32`;
* fallible operations return `Except String`; external engine
  interactions (subprocess invocations) are answered by explicit oracle
  records and recorded in an event trace.
-/

namespace Cross

/-- Errors are modelled as their message strings (`eyre::Report`). -/
abbrev Err := String

/-! ### Engine dialect detection, from `src/docker.rs` (`get_engine_type`) -/

/-- `EngineType` from `src/docker.rs`. -/
inductive EngineType where
  | Docker
  | Podman
  | PodmanRemote
  | Other
deriving DecidableEq, Repr

/-- Byte-wise substring containment, modelling Rust `str::contains`. -/
def containsSub (needle hay : String) : Bool :=
  decide (needle.data <:+: hay.data)

/-- ASCII lowercasing, modelling `str::to_lowercase` on the ASCII help
output of a container engine. -/
def asciiLower (s : String) : String :=
  String.mk (s.data.map Char.toLower)

/-- Classification of the lowercased `<engine> --help` output, from
`get_engine_type` in `src/docker.rs` (the subprocess invocation itself is
external; `stdout` is its captured output). -/
def get_engine_type (stdout : String) : EngineType :=
  let s := asciiLower stdout
  if containsSub "podman-remote" s then EngineType.PodmanRemote
  else if containsSub "podman" s then EngineType.Podman
  else if containsSub "docker" s && !containsSub "emulate" s then EngineType.Docker
  else EngineType.Other

/-! ### Container state, from `src/docker/remote.rs` (`ContainerState`) -/

/-- `ContainerState` from `src/docker/remote.rs`. -/
inductive ContainerState where
  | Created
  | Running
  | Paused
  | Restarting
  | Dead
  | Exited
  | DoesNotExist
deriving DecidableEq, Repr

/-- `ContainerState::new` from `src/docker/remote.rs`: a Rust `match` on
the state string, erroring on anything outside the seven known inputs. -/
def ContainerState.new (state : String) : Except Err ContainerState :=
  if state = "created" then .ok .Created
  else if state = "running" then .ok .Running
  else if state = "paused" then .ok .Paused
  else if state = "restarting" then .ok .Restarting
  else if state = "dead" then .ok .Dead
  else if state = "exited" then .ok .Exited
  else if state = "" then .ok .DoesNotExist
  else .error ("unknown container state: got " ++ state)

/-- `ContainerState::is_stopped` from `src/docker/remote.rs`. -/
def ContainerState.is_stopped : ContainerState → Bool
  | .Exited => true
  | .DoesNotExist => true
  | _ => false

/-- `ContainerState::exists` from `src/docker/remote.rs`. -/
def ContainerState.exists : ContainerState → Bool
  | .DoesNotExist => false
  | _ => true

/-! ### Volume identity, from `src/docker/remote.rs` (`VolumeId`) -/

/-- `VolumeId` from `src/docker/remote.rs`. -/
inductive VolumeId where
  | Keep (name : String)
  | Discard (name : String)
deriving DecidableEq, Repr

/-- `VolumeId::create` from `src/docker/remote.rs`.  The `volume_exists`
engine query is external; its result (or spawn failure) is passed in as
`existsKeep`. -/
def VolumeId.create (existsKeep : Except Err Bool) (container : String) :
    Except Err VolumeId :=
  match existsKeep with
  | .error e => .error e
  | .ok b =>
      if b then .ok (.Keep (container ++ "-keep"))
      else .ok (.Discard container)

/-! ### Cache-directory detection, from `src/docker/remote.rs`
(`is_cachedir_tag`, `is_cachedir`) -/

/-- The fixed 43-byte signature compared against in `is_cachedir_tag`. -/
def cachedirSignature : List Nat :=
  "Signature: 8a477f597d28d172789f06886806bc55".data.map Char.toNat

/-- `is_cachedir_tag` from `src/docker/remote.rs`: `read_exact` fills a
43-byte buffer (erroring when the file holds fewer than 43 bytes) and the
buffer is compared against the fixed signature.  `content` is the byte
content of the opened file. -/
def is_cachedir_tag (content : List Nat) : Except Err Bool :=
  if content.length < 43 then .error "failed to fill whole buffer"
  else .ok (decide (content.take 43 = cachedirSignature))

/-- `is_cachedir` from `src/docker/remote.rs`: a directory entry is a
cache directory when it is a directory, a `CACHEDIR.TAG` file exists in
it (`tagContent` is `some` of its bytes), and `is_cachedir_tag` returns
`true`, any error being collapsed to `false` by `unwrap_or(false)`. -/
def is_cachedir (isDir : Bool) (tagContent : Option (List Nat)) : Bool :=
  if isDir then
    match tagContent with
    | none => false
    | some c =>
        match is_cachedir_tag c with
        | .ok b => b
        | .error _ => false
  else false

/-! ### Image resolution, from `src/docker.rs` (`image`) -/

/-- `CROSS_IMAGE` from `src/docker.rs`. -/
def CROSS_IMAGE : String := "ghcr.io/cross-rs"

/-- Compile-time embedded build data used by `image` in `src/docker.rs`:
the build-generated `DOCKER_IMAGES` list, the embedded
`commit-info.txt` marker, and `CARGO_PKG_VERSION`. -/
structure ImageBuild where
  dockerImages : List String
  commitInfo : String
  pkgVersion : String

/-- `image` from `src/docker.rs`.  `configImage` is the result of the
external `config.image(target)` lookup, `triple` the target triple (the
`Display` form of `Target`). -/
def image (build : ImageBuild) (configImage : Except Err (Option String))
    (triple : String) : Except Err String :=
  match configImage with
  | .error e => .error e
  | .ok (some img) => .ok img
  | .ok none =>
      if !build.dockerImages.contains triple then
        .error ("`cross` does not provide a Docker image for target " ++ triple ++
          ", specify a custom image in `Cross.toml`.")
      else
        let version := if build.commitInfo.isEmpty then build.pkgVersion else "main"
        .ok (CROSS_IMAGE ++ "/" ++ triple ++ ":" ++ version)

/-! ### Interactive terminal flags of the local runner, from
`src/docker.rs` (`local_run`, the `atty` block) -/

/-- The interactive flags added by `local_run` in `src/docker.rs`:
`-i` when stdin is a terminal and, nested inside that branch, `-t` when
stdout and stderr are also terminals. -/
def local_run_tty_args (stdin stdout stderr : Bool) : List String :=
  if stdin then
    if stdout && stderr then ["-i", "-t"] else ["-i"]
  else []

/-! ### Mount-path translation, from `src/docker/shared.rs`
(`MountDetail`, `MountFinder`)

Paths are modelled as canonical component lists.  The displayed byte
length of a canonical absolute path `/c0/c1/...` is the sum of the
component lengths plus one separator per component, which is the sort
key used by `MountFinder::new` (`destination.as_os_str().len()`).
`Path::strip_prefix` is component-wise list prefix removal and
`Path::join` with the relative remainder is list append. -/

/-- A filesystem path as its list of canonical components. -/
abbrev PathC := List String

/-- Displayed byte length of a canonical absolute path, the sort key of
`MountFinder::new`. -/
def oslen (p : PathC) : Nat := (p.map String.length).sum + p.length

/-- `MountDetail` from `src/docker/shared.rs`. -/
structure MountDetail where
  source : PathC
  destination : PathC
deriving DecidableEq, Repr

/-- The comparator passed to `sort_by` in `MountFinder::new`:
destinations with greater byte length come first. -/
def mountLe (a b : MountDetail) : Prop :=
  oslen b.destination ≤ oslen a.destination

instance : DecidableRel mountLe := fun _ _ => Nat.decLe _ _

instance : IsTotal MountDetail mountLe :=
  ⟨fun a b => Nat.le_total (oslen b.destination) (oslen a.destination)⟩

instance : IsTrans MountDetail mountLe :=
  ⟨fun _ _ _ h1 h2 => Nat.le_trans h2 h1⟩

/-- `MountFinder` from `src/docker/shared.rs`. -/
structure MountFinder where
  mounts : List MountDetail
deriving Repr

/-- `MountFinder::new` from `src/docker/shared.rs`: Rust `sort_by` is a
stable sort, embedded as the (stable) insertion sort under `mountLe`. -/
def MountFinder.new (mounts : List MountDetail) : MountFinder :=
  ⟨List.insertionSort mountLe mounts⟩

/-- `MountFinder::find_mount_path` from `src/docker/shared.rs`: the
first entry (in sorted order) whose destination is a prefix of `path`
rewrites `path`; otherwise `path` is returned unchanged. -/
def MountFinder.find_mount_path (m : MountFinder) (path : PathC) : PathC :=
  match m.mounts.find? (fun info => decide (info.destination <+: path)) with
  | some info => info.source ++ path.drop info.destination.length
  | none => path

/-! ### Resource identity, from `src/docker/remote.rs`
(`path_hash`, `remote_identifier`)

`path_hash` computes the SHA-1 digest of the displayed path (via the
`sha1_smol` crate) and keeps the first 5 hex characters.  SHA-1 is
embedded below over byte lists, with 32-bit words as `Nat` reduced
modulo `2 ^ 32`. -/

/-- `2 ^ 32`, the modulus for 32-bit words. -/
def w32 : Nat := 4294967296

/-- Left rotation of a 32-bit word. -/
def rotl32 (s n : Nat) : Nat :=
  ((n <<< s) ||| (n >>> (32 - s))) % w32

/-- Big-endian 32-bit words from a byte list (length a multiple of 4). -/
def bytesToWords : List Nat → List Nat
  | b0 :: b1 :: b2 :: b3 :: rest =>
      (((b0 * 256 + b1) * 256 + b2) * 256 + b3) :: bytesToWords rest
  | _ => []

/-- One step of the SHA-1 message-schedule extension, on the reversed
word list (newest word first). -/
def sha1ExtendStep (acc : List Nat) : List Nat :=
  let a := (acc.get? 2).getD 0
  let b := (acc.get? 7).getD 0
  let c := (acc.get? 13).getD 0
  let d := (acc.get? 15).getD 0
  rotl32 1 (a ^^^ b ^^^ c ^^^ d) :: acc

/-- The 80-word message schedule of one SHA-1 block. -/
def sha1Schedule (ws16 : List Nat) : List Nat :=
  (sha1ExtendStep^[64] ws16.reverse).reverse

/-- One SHA-1 round: `st` is `(a, b, c, d, e)` and `iw` the round index
with its schedule word. -/
def sha1Round (st : Nat × Nat × Nat × Nat × Nat) (iw : Nat × Nat) :
    Nat × Nat × Nat × Nat × Nat :=
  let i := iw.1
  let w := iw.2
  let a := st.1
  let b := st.2.1
  let c := st.2.2.1
  let d := st.2.2.2.1
  let e := st.2.2.2.2
  let f :=
    if i < 20 then (b &&& c) ||| ((b ^^^ 4294967295) &&& d)
    else if i < 40 then b ^^^ c ^^^ d
    else if i < 60 then (b &&& c) ||| (b &&& d) ||| (c &&& d)
    else b ^^^ c ^^^ d
  let k :=
    if i < 20 then 1518500249
    else if i < 40 then 1859775393
    else if i < 60 then 2400959708
    else 3395469782
  let temp := (rotl32 5 a + f + e + k + w) % w32
  (temp, a, rotl32 30 b, c, d)

/-- Processing of one 64-byte block into the running SHA-1 state. -/
def sha1Block (h : Nat × Nat × Nat × Nat × Nat) (block : List Nat) :
    Nat × Nat × Nat × Nat × Nat :=
  let ws := sha1Schedule (bytesToWords block)
  let st := ((List.range 80).zip ws).foldl sha1Round h
  (((h.1 + st.1) % w32), ((h.2.1 + st.2.1) % w32), ((h.2.2.1 + st.2.2.1) % w32),
    ((h.2.2.2.1 + st.2.2.2.1) % w32), ((h.2.2.2.2 + st.2.2.2.2) % w32))

/-- SHA-1 padding: append `0x80`, zero bytes to 56 mod 64, then the
bit length as 8 big-endian bytes. -/
def sha1Pad (msg : List Nat) : List Nat :=
  let len := msg.length
  let k := (119 - len % 64) % 64
  let ml := 8 * len
  msg ++ [128] ++ List.replicate k 0 ++
    [ml >>> 56 % 256, ml >>> 48 % 256, ml >>> 40 % 256, ml >>> 32 % 256,
      ml >>> 24 % 256, ml >>> 16 % 256, ml >>> 8 % 256, ml % 256]

/-- Split a byte list into 64-byte blocks, with structural fuel (one
unit per block suffices since the list shrinks by 64 per step). -/
def chunks64Fuel : Nat → List Nat → List (List Nat)
  | 0, _ => []
  | _, [] => []
  | fuel + 1, a :: rest => ((a :: rest).take 64) :: chunks64Fuel fuel (rest.drop 63)

/-- Split a byte list into 64-byte blocks. -/
def chunks64 (l : List Nat) : List (List Nat) := chunks64Fuel l.length l

/-- The SHA-1 digest state after processing the whole message. -/
def sha1Digest (msg : List Nat) : Nat × Nat × Nat × Nat × Nat :=
  (chunks64 (sha1Pad msg)).foldl sha1Block
    (1732584193, 4023233417, 2562383102, 271733878, 3285377520)

/-- Hex digit characters. -/
def hexDigit (n : Nat) : Char := "0123456789abcdef".data.getD n '0'

/-- A 32-bit word as 8 lowercase hex characters. -/
def toHex8 (n : Nat) : List Char :=
  (List.range 8).map (fun i => hexDigit ((n >>> (4 * (7 - i))) &&& 15))

/-- The 40 lowercase hex characters of a SHA-1 digest. -/
def sha1HexChars (msg : List Nat) : List Char :=
  let d := sha1Digest msg
  toHex8 d.1 ++ toHex8 d.2.1 ++ toHex8 d.2.2.1 ++
    toHex8 d.2.2.2.1 ++ toHex8 d.2.2.2.2

/-- The 40-character lowercase hex form of a SHA-1 digest, modelling
`sha1_smol::Digest::to_string`. -/
def sha1Hex (msg : List Nat) : String :=
  String.mk (sha1HexChars msg)

/-- Displayed form of a canonical absolute path, modelling
`Path::display().to_string()`. -/
def displayPath (p : PathC) : String :=
  p.foldl (fun acc c => acc ++ "/" ++ c) ""

/-- `path_hash` from `src/docker/remote.rs`: the first 5 hex characters
of the SHA-1 digest of the displayed path. -/
def path_hash (p : PathC) : String :=
  String.mk ((sha1HexChars ((displayPath p).data.map Char.toNat)).take 5)

/-- A cargo package, with the fields of `cargo_metadata` consumed by
`remote_identifier`. -/
structure Package where
  name : String
  manifest_path : PathC
deriving DecidableEq, Repr

/-- `CargoMetadata` fields consumed by `remote_identifier`. -/
structure CargoMetadata where
  workspace_root : PathC
  packages : List Package
deriving DecidableEq, Repr

/-- The host `rustc` version metadata consumed by `remote_identifier`
(obtained externally via `rustc::version_meta`). -/
structure VersionMeta where
  commit_hash : Option String
  short_version_string : String
deriving DecidableEq, Repr

/-- `remote_identifier` from `src/docker/remote.rs`: picks the package
whose manifest directory is the workspace root (else the first package),
and formats
`cross-{name}-{triple}-{project_hash}-{toolchain_hash}-{commit_hash}`.
`versionMeta` is the result of the external `rustc::version_meta()`
call; `sysroot` is `dirs.sysroot`. -/
def remote_identifier (versionMeta : Except Err VersionMeta) (triple : String)
    (metadata : CargoMetadata) (sysroot : PathC) : Except Err String :=
  match versionMeta with
  | .error e => .error e
  | .ok vm =>
      let commit_hash := vm.commit_hash.getD vm.short_version_string
      let package? :=
        match metadata.packages.find?
            (fun p => decide (p.manifest_path.dropLast = metadata.workspace_root)) with
        | some p => some p
        | none => metadata.packages.head?
      match package? with
      | none => .error "no packages in metadata"
      | some package =>
          .ok ("cross-" ++ package.name ++ "-" ++ triple ++ "-" ++
            path_hash package.manifest_path ++ "-" ++ path_hash sysroot ++ "-" ++
            commit_hash)

/-! ### The remote execution protocol, from `src/docker.rs`
(`remote_run`, `DeleteVolume::drop`, `DeleteContainer::drop` --- the
guard structs also appear verbatim in `src/docker/remote.rs`)

Every external engine interaction is recorded as an event and its
outcome (exit status, captured output, or spawn error) is answered by a
`RemoteEnv` oracle, one field per call site.  The computation is an
error-propagating writer: a value of `M α` is the `Result` of the Rust
code paired with the ordered trace of engine interactions it performed.
Compound staging helpers (`copy_volume_xargo`, `copy_volume_cargo`,
`copy_volume_rust`) are single oracle-mediated operations emitting one
event each, since the claims quantify over their outcomes. -/

/-- An observable engine interaction performed by `remote_run`. -/
inductive Ev where
  | volumeExistsQ (name : String)
  | psStateQ (name : String)
  | containerStop (name : String)
  | containerRm (name : String)
  | volumeRm (name : String)
  | volumeCreate (name : String)
  | containerRun (name : String)
  | copyXargo
  | copyCargo
  | copyRust
  | createDir (path : PathC)
  | copyFiles (src : PathC) (dst : PathC)
  | execSymlink
  | execCargo
  | copyBack
deriving DecidableEq, Repr

/-- The trace of engine interactions. -/
abbrev Trace := List Ev

/-- Error-propagating writer: the Rust `Result` together with the trace
of engine interactions performed while computing it. -/
def M (α : Type) : Type := Except Err α × Trace

/-- A successful value with an empty trace. -/
def M.pure (a : α) : M α := (.ok a, [])

/-- Sequencing: on error the continuation does not run (Rust `?`). -/
def M.bind (m : M α) (f : α → M β) : M β :=
  match m with
  | (.ok a, t) => ((f a).1, t ++ (f a).2)
  | (.error e, t) => (.error e, t)

instance : Monad M where
  pure := M.pure
  bind := M.bind

/-- An external engine call: emits its event and yields the oracle's
answer for that call site. -/
def emit (e : Ev) (r : Except Err α) : M α := (r, [e])

/-- A local fallible computation with no engine interaction. -/
def liftE (r : Except Err α) : M α := (r, [])

/-- Rust `let status = ...;` without `?`: the `Result` is captured as a
value instead of propagating. -/
def capture (m : M α) : M (Except Err α) := (.ok m.1, m.2)

/-- Rust `Result::ok()` in drop glue: the call runs, its outcome is
discarded. -/
def ignoreRes (m : M α) : M PUnit := (.ok PUnit.unit, m.2)

/-- A scope guard: the body runs first, then the guard's interactions
happen regardless of the body's outcome, and the body's outcome is
returned (drop glue cannot change it). -/
def withGuard (g : M PUnit) (m : M α) : M α := (m.1, m.2 ++ g.2)

/-- Oracle answers for every engine call site of `remote_run`, plus the
drop-guard call sites. -/
structure RemoteEnv where
  keepExists : Except Err Bool
  stateOutput : Except Err String
  reconStop : Except Err Bool
  reconRm : Except Err Bool
  reconVolExists : Except Err Bool
  reconVolRm : Except Err Bool
  volCreate : Except Err Bool
  runContainer : Except Err Bool
  xargoCopy : Except Err Bool
  cargoCopy : Except Err Bool
  rustCopy : Except Err Bool
  mkMountRootDir : Except Err Bool
  hostRootCopy : Except Err Bool
  canonTarget : Except Err PathC
  targetOp : Except Err Bool
  volDirOps : List (Except Err Bool)
  volCopyOps : List (Except Err Bool)
  symlinkExec : Except Err Bool
  cargoExec : Except Err Bool
  copyBackOp : Except Err Bool
  guardStop : Except Err Bool
  guardRm : Except Err Bool
  guardVolRm : Except Err Bool

/-- Inputs of `remote_run` that are resolved before any engine call:
the deterministic identifier (`remote_identifier`, which consults the
external toolchain), the resolved `Directories`, the mount table
results of `docker_mount`, the image resolution result, and the
`CROSS_REMOTE_COPY_CACHE` toggle. -/
structure RemoteInput where
  identifier : Except Err String
  xargoDir : PathC
  cargoDir : PathC
  sysrootDir : PathC
  targetDir : PathC
  hostRoot : PathC
  mountRootDir : PathC
  mountVolumes : Bool
  volumes : List (PathC × PathC)
  imageResult : Except Err String
  copyCache : Bool

/-- The fixed mount prefix `/cross` of `remote_run`. -/
def mountBase : PathC := ["cross"]

/-- Drop glue of `DeleteContainer` from `src/docker.rs`: stop then
remove the container, each outcome discarded by `.ok()`. -/
def deleteContainerDrop (env : RemoteEnv) (c : String) : M PUnit :=
  M.bind (ignoreRes (emit (.containerStop c) env.guardStop)) fun _ =>
    ignoreRes (emit (.containerRm c) env.guardRm)

/-- Drop glue of `DeleteVolume` from `src/docker.rs`: remove the volume
only for a `Discard` identity, the outcome discarded by `.ok()`. -/
def deleteVolumeDrop (env : RemoteEnv) (v : VolumeId) : M PUnit :=
  match v with
  | .Discard id => ignoreRes (emit (.volumeRm id) env.guardVolRm)
  | .Keep _ => M.pure PUnit.unit

/-- Step 1 of `remote_run`: compute the identifier, select the volume
identity, and reconcile stale state from a previous ungraceful exit
(stop a running container, remove an existing container, remove a stale
`Discard` volume).  Errors here are fatal and no guard is yet active. -/
def remoteReconcile (env : RemoteEnv) (inp : RemoteInput) : M (VolumeId × String) :=
  M.bind (liftE inp.identifier) fun container =>
    M.bind (M.bind (emit (.volumeExistsQ (container ++ "-keep")) env.keepExists)
        fun b => liftE (VolumeId.create (.ok b) container)) fun volume =>
      M.bind (M.bind (emit (.psStateQ container) env.stateOutput)
          fun s => liftE (ContainerState.new s)) fun state =>
        M.bind (if state.is_stopped then M.pure PUnit.unit
            else M.bind (emit (.containerStop container) env.reconStop)
              fun _ => M.pure PUnit.unit) fun _ =>
          M.bind (if state.exists then
              M.bind (emit (.containerRm container) env.reconRm)
                fun _ => M.pure PUnit.unit
            else M.pure PUnit.unit) fun _ =>
            M.bind (match volume with
              | .Discard id =>
                  M.bind (emit (.volumeExistsQ id) env.reconVolExists) fun b =>
                    if b then
                      M.bind (emit (.volumeRm id) env.reconVolRm)
                        fun _ => M.pure PUnit.unit
                    else M.pure PUnit.unit
              | .Keep _ => M.pure PUnit.unit) fun _ =>
              M.pure (volume, container)

/-- Step 2 of `remote_run`: create the volume when the identity is
`Discard`.  This happens before the volume guard is constructed. -/
def remoteVolumeCreate (env : RemoteEnv) (volume : VolumeId) : M PUnit :=
  match volume with
  | .Discard id =>
      M.bind (emit (.volumeCreate id) env.volCreate) fun _ => M.pure PUnit.unit
  | .Keep _ => M.pure PUnit.unit

/-- The loop over extra mounted volumes in step 4 of `remote_run`: a
path already under a copied tree is only recorded for symlinking, any
other path gets its parent directory created (when the destination is
not the root) and is copied in.  `i` indexes the oracle answers. -/
def remoteVolumesLoop (env : RemoteEnv) (copied : List (PathC × PathC)) :
    List (PathC × PathC) → Nat → M PUnit
  | [], _ => M.pure PUnit.unit
  | (src, dst) :: rest, i =>
      M.bind
        (match copied.find? (fun pd => decide (pd.1 <+: src)) with
        | some _ => M.pure PUnit.unit
        | none =>
            let mdst := mountBase ++ dst
            M.bind (if dst ≠ [] then
                M.bind (emit (.createDir mdst.dropLast)
                    ((env.volDirOps.getD i (.ok true)))) fun _ => M.pure PUnit.unit
              else M.pure PUnit.unit) fun _ =>
              M.bind (emit (.copyFiles src mdst)
                  ((env.volCopyOps.getD i (.ok true)))) fun _ => M.pure PUnit.unit)
        fun _ => remoteVolumesLoop env copied rest (i + 1)

/-- Steps 4--7 of `remote_run`, running with both guards active: stage
the xargo home, cargo home and sysroot only for a `Discard` volume,
copy the project root, handle the target directory, copy extra volumes,
run the symlink-reconstruction script, execute the build (its `Result`
captured, not propagated), and copy the target directory back. -/
def remoteSteps47 (env : RemoteEnv) (inp : RemoteInput) (volume : VolumeId) :
    M Bool :=
  M.bind (match volume with
    | .Discard _ =>
        M.bind (emit .copyXargo env.xargoCopy) fun _ =>
          M.bind (emit .copyCargo env.cargoCopy) fun _ =>
            M.bind (emit .copyRust env.rustCopy) fun _ => M.pure PUnit.unit
    | .Keep _ => M.pure PUnit.unit) fun _ =>
    M.bind (if inp.mountVolumes then
        let mr := mountBase ++ inp.mountRootDir
        if inp.mountRootDir ≠ [] then
          M.bind (emit (.createDir mr.dropLast) env.mkMountRootDir) fun _ =>
            M.pure mr
        else M.pure mr
      else M.pure (mountBase ++ ["project"])) fun mountRoot =>
      M.bind (emit (.copyFiles inp.hostRoot mountRoot) env.hostRootCopy) fun _ =>
        let copied := [(inp.xargoDir, mountBase ++ ["xargo"]),
          (inp.cargoDir, mountBase ++ ["cargo"]),
          (inp.sysrootDir, mountBase ++ ["rust"]),
          (inp.hostRoot, mountRoot)]
        M.bind (liftE env.canonTarget) fun canonTarget =>
          M.bind (if decide (inp.hostRoot <+: canonTarget) then
              M.pure copied
            else
              let td := mountBase ++ ["target"]
              if inp.copyCache then
                M.bind (emit (.copyFiles inp.targetDir td) env.targetOp) fun _ =>
                  M.pure (copied ++ [(inp.targetDir, td)])
              else
                M.bind (emit (.createDir td) env.targetOp) fun _ =>
                  M.pure (copied ++ [(inp.targetDir, td)])) fun copied2 =>
            M.bind (remoteVolumesLoop env copied2 inp.volumes 0) fun _ =>
              M.bind (emit .execSymlink env.symlinkExec) fun _ =>
                M.bind (capture (emit .execCargo env.cargoExec)) fun status =>
                  M.bind (emit .copyBack env.copyBackOp) fun _ =>
                    liftE status

/-- `remote_run` from `src/docker.rs`: reconcile, create the volume,
activate the volume guard, resolve the image and start the placeholder
container, activate the container guard, then perform steps 4--7.  On
scope exit the container guard (stop, remove) runs before the volume
guard (remove the volume only when `Discard`). -/
def remote_run (env : RemoteEnv) (inp : RemoteInput) : M Bool :=
  M.bind (remoteReconcile env inp) fun vc =>
    M.bind (remoteVolumeCreate env vc.1) fun _ =>
      withGuard (deleteVolumeDrop env vc.1)
        (M.bind (liftE inp.imageResult) fun _ =>
          M.bind (emit (.containerRun vc.2) env.runContainer) fun _ =>
            withGuard (deleteContainerDrop env vc.2)
              (remoteSteps47 env inp vc.1))

/-- Classifier: the engine interactions that the reconciliation step
(step 1 of `remote_run`) can perform. -/
def reconEv : Ev → Bool
  | .volumeExistsQ _ => true
  | .psStateQ _ => true
  | .containerStop _ => true
  | .containerRm _ => true
  | .volumeRm _ => true
  | _ => false

/-- Classifier: the engine interactions that steps 4--7 of `remote_run`
can perform. -/
def stageEv : Ev → Bool
  | .copyXargo => true
  | .copyCargo => true
  | .copyRust => true
  | .createDir _ => true
  | .copyFiles _ _ => true
  | .execSymlink => true
  | .execCargo => true
  | .copyBack => true
  | _ => false

/-- A concrete all-successful oracle, used to evaluate `remote_run` on
a closed input. -/
def envW : RemoteEnv :=
  ⟨.ok false, .ok "", .ok true, .ok true, .ok false, .ok true, .ok true,
    .ok true, .ok true, .ok true, .ok true, .ok true, .ok true, .ok ["t"],
    .ok true, [], [], .ok true, .ok true, .ok true, .ok true, .ok true,
    .ok true⟩

/-- A concrete input for evaluating `remote_run` on a closed input. -/
def inpW : RemoteInput :=
  ⟨.ok "cid", ["x"], ["ca"], ["sr"], ["t"], ["w"], ["w"], false, [],
    .ok "img", false⟩

/-! ## Theorems -/

/-- C7: `ContainerState::new` is a total, exhaustive mapping over
exactly seven inputs: `created`, `running`, `paused`, `restarting`,
`dead` and `exited` map to their states, the empty string maps to
`DoesNotExist`, and every other input string is an error. -/
theorem containerState_new_total :
    ContainerState.new "created" = .ok .Created ∧
    ContainerState.new "running" = .ok .Running ∧
    ContainerState.new "paused" = .ok .Paused ∧
    ContainerState.new "restarting" = .ok .Restarting ∧
    ContainerState.new "dead" = .ok .Dead ∧
    ContainerState.new "exited" = .ok .Exited ∧
    ContainerState.new "" = .ok .DoesNotExist ∧
    ∀ s : String,
      s ∉ ["created", "running", "paused", "restarting", "dead", "exited", ""] →
      (ContainerState.new s).isOk = false := by
  refine ⟨rfl, rfl, rfl, rfl, rfl, rfl, rfl, ?_⟩
  intro s hs
  simp only [ContainerState.new]
  split_ifs with h1 h2 h3 h4 h5 h6 h7 <;> first
  | rfl
  | simp_all

/-- Witness for C7: a concrete unknown state string is an error. -/
theorem containerState_new_total_witness :
    (ContainerState.new "bogus").isOk = false :=
  containerState_new_total.2.2.2.2.2.2.2 "bogus" (by decide)

/-- C8: engine-dialect detection classifies the lowercased help output
by substring: `podman-remote` wins, else `podman`, else `docker`
without `emulate`, else `Other`. -/
theorem get_engine_type_classifies (stdout : String) :
    (get_engine_type stdout = .PodmanRemote ↔
      containsSub "podman-remote" (asciiLower stdout) = true) ∧
    (get_engine_type stdout = .Podman ↔
      (containsSub "podman-remote" (asciiLower stdout) = false ∧
        containsSub "podman" (asciiLower stdout) = true)) ∧
    (get_engine_type stdout = .Docker ↔
      (containsSub "podman-remote" (asciiLower stdout) = false ∧
        containsSub "podman" (asciiLower stdout) = false ∧
        containsSub "docker" (asciiLower stdout) = true ∧
        containsSub "emulate" (asciiLower stdout) = false)) ∧
    (get_engine_type stdout = .Other ↔
      (containsSub "podman-remote" (asciiLower stdout) = false ∧
        containsSub "podman" (asciiLower stdout) = false ∧
        (containsSub "docker" (asciiLower stdout) = false ∨
          containsSub "emulate" (asciiLower stdout) = true))) := by
  simp only [get_engine_type]
  cases hr : containsSub "podman-remote" (asciiLower stdout) <;>
    cases hp : containsSub "podman" (asciiLower stdout) <;>
      cases hd : containsSub "docker" (asciiLower stdout) <;>
        cases he : containsSub "emulate" (asciiLower stdout) <;>
          simp

/-- C5: `VolumeId::create` yields `Keep("{container}-keep")` exactly
when the keep volume exists, and otherwise `Discard` carrying exactly
the container name. -/
theorem volumeId_create_spec (container : String) (b : Bool) :
    (VolumeId.create (.ok b) container = .ok (.Keep (container ++ "-keep")) ↔
      b = true) ∧
    (VolumeId.create (.ok b) container = .ok (.Discard container) ↔
      b = false) := by
  cases b <;> simp [VolumeId.create]

/-- Counterexample for C4: a `CACHEDIR.TAG` whose content strictly
extends the 43-byte signature is still treated as a cache directory,
refuting the claim that any extension of the content causes the
directory to be treated as non-cache. -/
theorem cachedir_extension_counterexample :
    is_cachedir true (some (cachedirSignature ++ [10])) = true ∧
    cachedirSignature ++ [10] ≠ cachedirSignature := by
  constructor
  · rfl
  · simp

/-- C4 (amended): a directory is a skippable cache directory exactly
when it contains a `CACHEDIR.TAG` of at least 43 bytes whose first 43
bytes equal the fixed signature; shorter files and any byte difference
within the first 43 bytes make it non-cache, but content beyond the
first 43 bytes is ignored. -/
theorem is_cachedir_spec (isDir : Bool) (t : Option (List Nat)) :
    is_cachedir isDir t = true ↔
      (isDir = true ∧ ∃ c, t = some c ∧ 43 ≤ c.length ∧
        c.take 43 = cachedirSignature) := by
  cases isDir
  · simp [is_cachedir]
  · cases t with
    | none => simp [is_cachedir]
    | some c =>
        simp only [true_and]
        by_cases h : c.length < 43
        · have he : is_cachedir true (some c) = false := by
            simp [is_cachedir, is_cachedir_tag, h]
          rw [he]
          simp only [Bool.false_eq_true, false_iff]
          rintro ⟨d, hd, hlen, _⟩
          cases hd
          omega
        · have he : is_cachedir true (some c) =
              decide (c.take 43 = cachedirSignature) := by
            simp [is_cachedir, is_cachedir_tag, h]
          rw [he]
          simp only [decide_eq_true_eq]
          constructor
          · intro ht
            exact ⟨c, rfl, by omega, ht⟩
          · rintro ⟨d, hd, _, ht⟩
            cases hd
            exact ht

/-- Counterexample for C9: with stdin a terminal but stdout and stderr
not terminals, the local runner still adds `-i`, refuting the claim
that neither interactive flag is added unless all three are
terminals. -/
theorem local_run_tty_counterexample :
    (true && false && false) = false ∧
    local_run_tty_args true false false = ["-i"] := by
  decide

/-- C9 (amended): in the local runner `-i` is added exactly when stdin
is a terminal, and `-t` is added exactly when stdin, stdout and stderr
are all terminals. -/
theorem local_run_tty_spec (i o e : Bool) :
    ("-i" ∈ local_run_tty_args i o e ↔ i = true) ∧
    ("-t" ∈ local_run_tty_args i o e ↔ (i && o && e) = true) := by
  cases i <;> cases o <;> cases e <;> decide

/-- C2: image resolution returns a configured per-target image
unconditionally (even for triples outside the compiled-in list); with
no configured image it fails for an unsupported triple with an error
suggesting a custom image, and otherwise returns the built-in reference
tagged with the package version, or with the moving `main` tag when the
embedded commit-info marker is non-empty. -/
theorem image_resolution_spec :
    (∀ (build : ImageBuild) (triple img : String),
      image build (.ok (some img)) triple = .ok img) ∧
    (∀ (build : ImageBuild) (triple : String),
      triple ∉ build.dockerImages →
        ∃ e, image build (.ok none) triple = .error e ∧
          containsSub "specify a custom image" e = true) ∧
    (∀ (build : ImageBuild) (triple : String),
      triple ∈ build.dockerImages →
        image build (.ok none) triple =
          .ok (CROSS_IMAGE ++ "/" ++ triple ++ ":" ++
            (if build.commitInfo.isEmpty then build.pkgVersion else "main"))) := by
  refine ⟨fun _ _ _ => rfl, ?_, ?_⟩
  · intro build triple hmem
    refine ⟨"`cross` does not provide a Docker image for target " ++ triple ++
      ", specify a custom image in `Cross.toml`.",
      by simp only [image]; rw [if_pos (by simpa using hmem)], ?_⟩
    simp only [containsSub, decide_eq_true_eq]
    have h2 : "specify a custom image".data <:+:
        ", specify a custom image in `Cross.toml`.".data := by decide
    obtain ⟨u, v, huv⟩ := h2
    refine ⟨("`cross` does not provide a Docker image for target " ++ triple).data
      ++ u, v, ?_⟩
    rw [String.data_append, String.data_append, ← huv]
    simp
  · intro build triple hmem
    simp only [image]
    rw [if_neg (by simpa using hmem)]

/-- Witness for C2: with a one-element supported list, an unsupported
triple yields the suggestion error and a supported triple yields the
version-tagged built-in reference. -/
theorem image_resolution_witness :
    (∃ e, image ⟨["t1"], "", "0.2.1"⟩ (.ok none) "t2" = .error e ∧
      containsSub "specify a custom image" e = true) ∧
    image ⟨["t1"], "", "0.2.1"⟩ (.ok none) "t1" =
      .ok (CROSS_IMAGE ++ "/" ++ "t1" ++ ":" ++
        (if ("" : String).isEmpty then "0.2.1" else "main")) :=
  ⟨image_resolution_spec.2.1 ⟨["t1"], "", "0.2.1"⟩ "t2" (by decide),
    image_resolution_spec.2.2 ⟨["t1"], "", "0.2.1"⟩ "t1" (by decide)⟩

/-- A strict extension of a path has strictly greater displayed byte
length (every component contributes at least its separator). -/
theorem oslen_lt_of_ne {d1 d2 : PathC} (h : d1 <+: d2) (hne : d1 ≠ d2) :
    oslen d1 < oslen d2 := by
  obtain ⟨t, rfl⟩ := h
  cases t with
  | nil => exact absurd (by simp) hne
  | cons a t =>
      simp only [oslen, List.map_append, List.sum_append, List.length_append,
        List.map_cons, List.sum_cons, List.length_cons]
      omega

/-- Two prefixes of the same path are comparable. -/
theorem pref_total {l1 l2 p : PathC} (h1 : l1 <+: p) (h2 : l2 <+: p) :
    l1 <+: l2 ∨ l2 <+: l1 := by
  rcases Nat.le_total l1.length l2.length with hle | hle
  · exact Or.inl ( List.prefix_of_prefix_length_le h1 h2 hle)
  · exact Or.inr ( List.prefix_of_prefix_length_le h2 h1 hle)

/-- In a list sorted by descending destination byte length, the first
entry whose destination is a prefix of `p` has the longest matching
destination: every other match is a prefix of it. -/
theorem find_first_longest {p : PathC} :
    ∀ {s : List MountDetail}, List.Pairwise mountLe s →
      ∀ {e : MountDetail},
        s.find? (fun i => decide (i.destination <+: p)) = some e →
        ∀ x ∈ s, x.destination <+: p → x.destination <+: e.destination := by
  intro s
  induction s with
  | nil => intro _ e hf; simp at hf
  | cons a rest ih =>
      intro hs e hf x hx hxp
      by_cases ha : (decide (a.destination <+: p) : Bool) = true
      · rw [@List.find?_cons_of_pos MountDetail (fun i => decide (i.destination <+: p))
          a rest ha] at hf
        cases hf
        have hap : a.destination <+: p := of_decide_eq_true ha
        rcases List.mem_cons.mp hx with rfl | hx2
        · exact List.prefix_rfl
        · have hle : mountLe a x := (List.pairwise_cons.mp hs).1 x hx2
          rcases pref_total hxp hap with hc | hc
          · exact hc
          · by_cases heq : a.destination = x.destination
            · rw [← heq]
            · exact absurd (oslen_lt_of_ne hc heq) (Nat.not_lt.mpr hle)
      · rw [@List.find?_cons_of_neg MountDetail (fun i => decide (i.destination <+: p))
          a rest ha] at hf
        rcases List.mem_cons.mp hx with rfl | hx2
        · exact absurd (decide_eq_true hxp) ha
        · exact ih (List.pairwise_cons.mp hs).2 hf x hx2 hxp

/-- The sorted table of `MountFinder::new` is a permutation of the
input table. -/
theorem new_mounts_perm (l : List MountDetail) :
    (MountFinder.new l).mounts.Perm l :=
  List.perm_insertionSort mountLe l

/-- The sorted table of `MountFinder::new` is pairwise sorted by
descending destination byte length. -/
theorem new_mounts_sorted (l : List MountDetail) :
    List.Pairwise mountLe (MountFinder.new l).mounts :=
  List.sorted_insertionSort mountLe l

/-- Counterexample for C3: with two entries sharing the destination
`/d` but different sources, the rewriting of `/d/z` depends on the
order in which the entries were passed to `MountFinder::new` (the sort
is stable, so ties keep insertion order), refuting order
independence. -/
theorem find_mount_path_order_counterexample :
    (MountFinder.new [⟨["a"], ["d"]⟩, ⟨["b"], ["d"]⟩]).find_mount_path ["d", "z"] ≠
      (MountFinder.new [⟨["b"], ["d"]⟩, ⟨["a"], ["d"]⟩]).find_mount_path
        ["d", "z"] := by
  decide

/-- C3 (amended): for every mount table whose destinations are pairwise
distinct and every path `p`, `find_mount_path` selects the entry whose
destination is the longest prefix of `p` and returns its source joined
with the remainder of `p`, independently of the order in which the
entries were passed to `MountFinder::new`; if no destination is a
prefix of `p`, `p` is returned unchanged (in particular the empty table
gives the identity).  With duplicate destinations the earliest-inserted
longest match wins instead. -/
theorem find_mount_path_spec (l l2 : List MountDetail) (p : PathC)
    (hnd : (l.map MountDetail.destination).Nodup)
    (hperm : l.Perm l2) :
    ((MountFinder.new l).find_mount_path p =
      (MountFinder.new l2).find_mount_path p) ∧
    (∀ e ∈ l, e.destination <+: p →
      ∃ b ∈ l, b.destination <+: p ∧
        (∀ x ∈ l, x.destination <+: p → x.destination <+: b.destination) ∧
        (MountFinder.new l).find_mount_path p =
          b.source ++ p.drop b.destination.length) ∧
    ((∀ e ∈ l, ¬ e.destination <+: p) →
      (MountFinder.new l).find_mount_path p = p) := by
  have hs1 := new_mounts_sorted l
  have hs2 := new_mounts_sorted l2
  have hp1 := new_mounts_perm l
  have hp2 := new_mounts_perm l2
  have key : ∀ e ∈ l, e.destination <+: p →
      ∃ b ∈ l, b.destination <+: p ∧
        (∀ x ∈ l, x.destination <+: p → x.destination <+: b.destination) ∧
        (MountFinder.new l).find_mount_path p =
          b.source ++ p.drop b.destination.length := by
    intro e he hep
    have hsome : ((MountFinder.new l).mounts.find?
        (fun i => decide (i.destination <+: p))).isSome := by
      exact List.find?_isSome.mpr ⟨e, hp1.mem_iff.mpr he, decide_eq_true hep⟩
    obtain ⟨b, hb⟩ := Option.isSome_iff_exists.mp hsome
    refine ⟨b, hp1.mem_iff.mp (List.mem_of_find?_eq_some hb),
      of_decide_eq_true (@List.find?_some MountDetail (fun i => decide (i.destination <+: p)) _ _ hb), ?_, ?_⟩
    · intro x hx hxp
      exact find_first_longest hs1 hb x (hp1.mem_iff.mpr hx) hxp
    · simp only [MountFinder.find_mount_path, hb]
  refine ⟨?_, key, ?_⟩
  · by_cases hm : ∃ e ∈ l, e.destination <+: p
    · obtain ⟨e, he, hep⟩ := hm
      obtain ⟨b, hbl, hbp, hbmax, hbeq⟩ := key e he hep
      have hsome2 : ((MountFinder.new l2).mounts.find?
          (fun i => decide (i.destination <+: p))).isSome := by
        exact List.find?_isSome.mpr
          ⟨e, hp2.mem_iff.mpr (hperm.mem_iff.mp he), decide_eq_true hep⟩
      obtain ⟨b2, hb2⟩ := Option.isSome_iff_exists.mp hsome2
      have hb2l : b2 ∈ l :=
        hperm.mem_iff.mpr (hp2.mem_iff.mp (List.mem_of_find?_eq_some hb2))
      have hb2p : b2.destination <+: p := of_decide_eq_true (@List.find?_some MountDetail (fun i => decide (i.destination <+: p)) _ _ hb2)
      have h12 : b.destination <+: b2.destination :=
        find_first_longest hs2 hb2 b
          (hp2.mem_iff.mpr (hperm.mem_iff.mp hbl)) hbp
      have h21 : b2.destination <+: b.destination := hbmax b2 hb2l hb2p
      have hdeq : b.destination = b2.destination :=
        h12.eq_of_length (Nat.le_antisymm h12.length_le h21.length_le)
      have hbb : b = b2 := List.inj_on_of_nodup_map hnd hbl hb2l hdeq
      rw [hbeq]
      simp only [MountFinder.find_mount_path, hb2, hbb]
    · push_neg at hm
      have hn1 : (MountFinder.new l).mounts.find?
          (fun i => decide (i.destination <+: p)) = none := by
        apply List.find?_eq_none.mpr
        intro x hx
        simpa using hm x (hp1.mem_iff.mp hx)
      have hn2 : (MountFinder.new l2).mounts.find?
          (fun i => decide (i.destination <+: p)) = none := by
        apply List.find?_eq_none.mpr
        intro x hx
        simpa using hm x (hperm.mem_iff.mpr (hp2.mem_iff.mp hx))
      simp only [MountFinder.find_mount_path, hn1, hn2]
  · intro hno
    have hn1 : (MountFinder.new l).mounts.find?
        (fun i => decide (i.destination <+: p)) = none := by
      apply List.find?_eq_none.mpr
      intro x hx
      simpa using hno x (hp1.mem_iff.mp hx)
    simp only [MountFinder.find_mount_path, hn1]

/-- Witness for C3 (amended): a concrete two-entry table with distinct
destinations gives the same rewriting in either insertion order. -/
theorem find_mount_path_spec_witness :
    (MountFinder.new [⟨["s1"], ["d"]⟩, ⟨["s2"], ["d", "e"]⟩]).find_mount_path
        ["d", "e", "f"] =
      (MountFinder.new [⟨["s2"], ["d", "e"]⟩, ⟨["s1"], ["d"]⟩]).find_mount_path
        ["d", "e", "f"] :=
  (find_mount_path_spec [⟨["s1"], ["d"]⟩, ⟨["s2"], ["d", "e"]⟩]
    [⟨["s2"], ["d", "e"]⟩, ⟨["s1"], ["d"]⟩] ["d", "e", "f"]
    (by decide) (by decide)).1

/-- Normal form of `remote_identifier` for a single-package workspace
whose manifest directory is the workspace root. -/
theorem remote_identifier_eq (ch svs triple n : String) (mp sys : PathC) :
    remote_identifier (.ok ⟨some ch, svs⟩) triple ⟨mp.dropLast, [⟨n, mp⟩]⟩ sys =
      .ok ("cross-" ++ n ++ "-" ++ triple ++ "-" ++ path_hash mp ++ "-" ++
        path_hash sys ++ "-" ++ ch) := by
  simp [remote_identifier, List.find?]

set_option maxRecDepth 200000 in
/-- Counterexample for C6: two distinct manifest paths whose 5-character
truncated SHA-1 hashes collide give identical identity strings with all
other inputs fixed, refuting the claim that changing any single input
changes the output. -/
theorem remote_identifier_collision_counterexample :
    remote_identifier (.ok ⟨some "abcdef0123", "rustc 1.62.0"⟩)
        "aarch64-unknown-linux-gnu" ⟨["tmp"], [⟨"pkg", ["tmp", "c946"]⟩]⟩ ["sr"] =
      remote_identifier (.ok ⟨some "abcdef0123", "rustc 1.62.0"⟩)
        "aarch64-unknown-linux-gnu" ⟨["tmp"], [⟨"pkg", ["tmp", "c1354"]⟩]⟩
        ["sr"] ∧
    (["tmp", "c946"] : PathC) ≠ ["tmp", "c1354"] := by
  constructor
  · have e1 : remote_identifier (.ok ⟨some "abcdef0123", "rustc 1.62.0"⟩)
        "aarch64-unknown-linux-gnu" ⟨["tmp"], [⟨"pkg", ["tmp", "c946"]⟩]⟩ ["sr"] =
        .ok ("cross-" ++ "pkg" ++ "-" ++ "aarch64-unknown-linux-gnu" ++ "-" ++
          path_hash ["tmp", "c946"] ++ "-" ++ path_hash ["sr"] ++ "-" ++
          "abcdef0123") :=
      remote_identifier_eq "abcdef0123" "rustc 1.62.0" "aarch64-unknown-linux-gnu"
        "pkg" ["tmp", "c946"] ["sr"]
    have e2 : remote_identifier (.ok ⟨some "abcdef0123", "rustc 1.62.0"⟩)
        "aarch64-unknown-linux-gnu" ⟨["tmp"], [⟨"pkg", ["tmp", "c1354"]⟩]⟩ ["sr"] =
        .ok ("cross-" ++ "pkg" ++ "-" ++ "aarch64-unknown-linux-gnu" ++ "-" ++
          path_hash ["tmp", "c1354"] ++ "-" ++ path_hash ["sr"] ++ "-" ++
          "abcdef0123") :=
      remote_identifier_eq "abcdef0123" "rustc 1.62.0" "aarch64-unknown-linux-gnu"
        "pkg" ["tmp", "c1354"] ["sr"]
    have hcol : path_hash ["tmp", "c946"] = path_hash ["tmp", "c1354"] := by
      decide
    rw [e1, e2, hcol]
  · decide

/-- C6 (amended): the identity is a pure function of (package name,
triple, manifest path, sysroot path, commit hash); changing only the
package name, the target triple, or the commit hash always changes the
output, while changing only the manifest path or only the sysroot path
changes the output exactly when its 5-character truncated SHA-1 hash
changes (the truncation admits collisions). -/
theorem remote_identifier_sensitivity (ch ch2 svs triple triple2 n n2 : String)
    (mp mp2 sys sys2 : PathC) :
    (remote_identifier (.ok ⟨some ch, svs⟩) triple ⟨mp.dropLast, [⟨n, mp⟩]⟩ sys =
      remote_identifier (.ok ⟨some ch, svs⟩) triple ⟨mp.dropLast, [⟨n2, mp⟩]⟩ sys
      ↔ n = n2) ∧
    (remote_identifier (.ok ⟨some ch, svs⟩) triple ⟨mp.dropLast, [⟨n, mp⟩]⟩ sys =
      remote_identifier (.ok ⟨some ch, svs⟩) triple2 ⟨mp.dropLast, [⟨n, mp⟩]⟩ sys
      ↔ triple = triple2) ∧
    (remote_identifier (.ok ⟨some ch, svs⟩) triple ⟨mp.dropLast, [⟨n, mp⟩]⟩ sys =
      remote_identifier (.ok ⟨some ch2, svs⟩) triple ⟨mp.dropLast, [⟨n, mp⟩]⟩ sys
      ↔ ch = ch2) ∧
    (remote_identifier (.ok ⟨some ch, svs⟩) triple ⟨mp.dropLast, [⟨n, mp⟩]⟩ sys =
      remote_identifier (.ok ⟨some ch, svs⟩) triple ⟨mp2.dropLast, [⟨n, mp2⟩]⟩ sys
      ↔ path_hash mp = path_hash mp2) ∧
    (remote_identifier (.ok ⟨some ch, svs⟩) triple ⟨mp.dropLast, [⟨n, mp⟩]⟩ sys =
      remote_identifier (.ok ⟨some ch, svs⟩) triple ⟨mp.dropLast, [⟨n, mp⟩]⟩ sys2
      ↔ path_hash sys = path_hash sys2) := by
  refine ⟨?_, ?_, ?_, ?_, ?_⟩
  · rw [remote_identifier_eq, remote_identifier_eq]
    constructor
    · intro h
      injection h with h2
      have hd := congrArg String.data h2
      simp only [String.data_append, List.append_assoc] at hd
      replace hd := List.append_cancel_left hd
      exact String.ext (List.append_cancel_right hd)
    · intro h
      rw [h]
  · rw [remote_identifier_eq, remote_identifier_eq]
    constructor
    · intro h
      injection h with h2
      have hd := congrArg String.data h2
      simp only [String.data_append, List.append_assoc] at hd
      replace hd := List.append_cancel_left hd
      replace hd := List.append_cancel_left hd
      replace hd := List.append_cancel_left hd
      exact String.ext (List.append_cancel_right hd)
    · intro h
      rw [h]
  · rw [remote_identifier_eq, remote_identifier_eq]
    constructor
    · intro h
      injection h with h2
      have hd := congrArg String.data h2
      simp only [String.data_append, List.append_assoc] at hd
      replace hd := List.append_cancel_left hd
      replace hd := List.append_cancel_left hd
      replace hd := List.append_cancel_left hd
      replace hd := List.append_cancel_left hd
      replace hd := List.append_cancel_left hd
      replace hd := List.append_cancel_left hd
      replace hd := List.append_cancel_left hd
      replace hd := List.append_cancel_left hd
      replace hd := List.append_cancel_left hd
      exact String.ext hd
    · intro h
      rw [h]
  · rw [remote_identifier_eq, remote_identifier_eq]
    constructor
    · intro h
      injection h with h2
      have hd := congrArg String.data h2
      simp only [String.data_append, List.append_assoc] at hd
      replace hd := List.append_cancel_left hd
      replace hd := List.append_cancel_left hd
      replace hd := List.append_cancel_left hd
      replace hd := List.append_cancel_left hd
      replace hd := List.append_cancel_left hd
      exact String.ext (List.append_cancel_right hd)
    · intro h
      rw [h]
  · rw [remote_identifier_eq, remote_identifier_eq]
    constructor
    · intro h
      injection h with h2
      have hd := congrArg String.data h2
      simp only [String.data_append, List.append_assoc] at hd
      replace hd := List.append_cancel_left hd
      replace hd := List.append_cancel_left hd
      replace hd := List.append_cancel_left hd
      replace hd := List.append_cancel_left hd
      replace hd := List.append_cancel_left hd
      replace hd := List.append_cancel_left hd
      replace hd := List.append_cancel_left hd
      exact String.ext (List.append_cancel_right hd)
    · intro h
      rw [h]

/-- The first projection of a bind is a success exactly when both parts
succeed. -/
theorem bind_fst_ok {α β : Type} {m : M α} {f : α → M β} {b : β} :
    (M.bind m f).1 = .ok b ↔ ∃ a, m.1 = .ok a ∧ (f a).1 = .ok b := by
  rcases m with ⟨r, t⟩
  cases r <;> simp [M.bind]

/-- An event of a bind's trace comes from the first computation or,
when it succeeded, from the continuation. -/
theorem mem_bind_trace {α β : Type} {m : M α} {f : α → M β} {e : Ev}
    (he : e ∈ (M.bind m f).2) : e ∈ m.2 ∨ ∃ a, m.1 = .ok a ∧ e ∈ (f a).2 := by
  rcases m with ⟨r, t⟩
  cases r with
  | error er => exact Or.inl he
  | ok a =>
      rcases List.mem_append.mp he with h | h
      · exact Or.inl h
      · exact Or.inr ⟨a, rfl, h⟩

/-- Events of the first computation stay in the bind's trace. -/
theorem mem_bind_left {α β : Type} {m : M α} {f : α → M β} {e : Ev}
    (he : e ∈ m.2) : e ∈ (M.bind m f).2 := by
  rcases m with ⟨r, t⟩
  cases r with
  | error er => exact he
  | ok a => exact List.mem_append_left _ he

/-- Events of the continuation stay in the bind's trace when the first
computation succeeded. -/
theorem mem_bind_right {α β : Type} {m : M α} {f : α → M β} {e : Ev} {a : α}
    (ha : m.1 = .ok a) (he : e ∈ (f a).2) : e ∈ (M.bind m f).2 := by
  rcases m with ⟨r, t⟩
  cases r with
  | error er => exact absurd ha (by simp)
  | ok a2 =>
      have h2 : a2 = a := by simpa using ha
      subst h2
      exact List.mem_append_right _ he

/-- Reconciliation only performs reconciliation-class engine calls: in
particular it never starts a container, creates a volume, or stages
data. -/
theorem reconcile_events (env : RemoteEnv) (inp : RemoteInput) :
    ∀ e ∈ (remoteReconcile env inp).2, reconEv e = true := by
  intro e he
  simp only [remoteReconcile] at he
  rcases mem_bind_trace he with h | ⟨c, _, h⟩
  · simp [liftE] at h
  rcases mem_bind_trace h with h | ⟨vol, hvol, h⟩
  · rcases mem_bind_trace h with h | ⟨b, _, h⟩
    · simp [emit] at h
      simp [h, reconEv]
    · simp [liftE] at h
  rcases mem_bind_trace h with h | ⟨st, hst, h⟩
  · rcases mem_bind_trace h with h | ⟨s, _, h⟩
    · simp [emit] at h
      simp [h, reconEv]
    · simp [liftE] at h
  rcases mem_bind_trace h with h | ⟨u1, _, h⟩
  · split at h
    · simp [M.pure] at h
    · rcases mem_bind_trace h with h | ⟨u2, _, h⟩
      · simp [emit] at h
        simp [h, reconEv]
      · simp [M.pure] at h
  rcases mem_bind_trace h with h | ⟨u3, _, h⟩
  · split at h
    · rcases mem_bind_trace h with h | ⟨u4, _, h⟩
      · simp [emit] at h
        simp [h, reconEv]
      · simp [M.pure] at h
    · simp [M.pure] at h
  rcases mem_bind_trace h with h | ⟨u5, _, h⟩
  · split at h
    · rcases mem_bind_trace h with h | ⟨b2, _, h⟩
      · simp [emit] at h
        simp [h, reconEv]
      · split at h
        · rcases mem_bind_trace h with h | ⟨u6, _, h⟩
          · simp [emit] at h
            simp [h, reconEv]
          · simp [M.pure] at h
        · simp [M.pure] at h
    · simp [M.pure] at h
  · simp [M.pure] at h

/-- When reconciliation succeeds, the selected identity is `Keep` of
`{container}-keep` when the keep volume exists and `Discard` of the
container name otherwise. -/
theorem reconcile_result (env : RemoteEnv) (inp : RemoteInput) (c : String)
    (b : Bool) (hi : inp.identifier = .ok c) (hk : env.keepExists = .ok b) :
    ∀ vc, (remoteReconcile env inp).1 = .ok vc →
      vc = ((if b then VolumeId.Keep (c ++ "-keep") else VolumeId.Discard c),
        c) := by
  intro vc hvc
  simp only [remoteReconcile] at hvc
  obtain ⟨c0, hc0, hvc⟩ := bind_fst_ok.mp hvc
  simp only [liftE, hi, Except.ok.injEq] at hc0
  subst hc0
  obtain ⟨vol, hvol, hvc⟩ := bind_fst_ok.mp hvc
  obtain ⟨b0, hb0, hvol⟩ := bind_fst_ok.mp hvol
  simp only [emit, hk, Except.ok.injEq] at hb0
  subst hb0
  obtain ⟨st, hst, hvc⟩ := bind_fst_ok.mp hvc
  obtain ⟨u1, hu1, hvc⟩ := bind_fst_ok.mp hvc
  obtain ⟨u2, hu2, hvc⟩ := bind_fst_ok.mp hvc
  obtain ⟨u3, hu3, hvc⟩ := bind_fst_ok.mp hvc
  have hfin : vc = (vol, c) := by
    have h2 := hvc.symm
    simp only [M.pure, Except.ok.injEq] at h2
    exact h2
  subst hfin
  cases b with
  | false =>
      have hv : VolumeId.Discard c = vol := by
        simpa [liftE, VolumeId.create] using hvol
      simp [← hv]
  | true =>
      have hv : VolumeId.Keep (c ++ "-keep") = vol := by
        simpa [liftE, VolumeId.create] using hvol
      simp [← hv]

/-- When the keep volume exists, reconciliation never removes any
volume. -/
theorem reconcile_keep (env : RemoteEnv) (inp : RemoteInput)
    (hk : env.keepExists = .ok true) :
    ∀ n, Ev.volumeRm n ∉ (remoteReconcile env inp).2 := by
  intro n he
  simp only [remoteReconcile] at he
  rcases mem_bind_trace he with h | ⟨c0, hc0, h⟩
  · simp [liftE] at h
  rcases mem_bind_trace h with h | ⟨vol, hvol, h⟩
  · rcases mem_bind_trace h with h | ⟨b0, _, h⟩
    · simp [emit] at h
    · simp [liftE] at h
  obtain ⟨b0, hb0, hvol⟩ := bind_fst_ok.mp hvol
  simp only [emit, hk, Except.ok.injEq] at hb0
  subst hb0
  have hv : VolumeId.Keep (c0 ++ "-keep") = vol := by
    simpa [liftE, VolumeId.create] using hvol
  rcases mem_bind_trace h with h | ⟨st, hst, h⟩
  · rcases mem_bind_trace h with h | ⟨s, _, h⟩
    · simp [emit] at h
    · simp [liftE] at h
  rcases mem_bind_trace h with h | ⟨u1, _, h⟩
  · split at h
    · simp [M.pure] at h
    · rcases mem_bind_trace h with h | ⟨u2, _, h⟩
      · simp [emit] at h
      · simp [M.pure] at h
  rcases mem_bind_trace h with h | ⟨u3, _, h⟩
  · split at h
    · rcases mem_bind_trace h with h | ⟨u4, _, h⟩
      · simp [emit] at h
      · simp [M.pure] at h
    · simp [M.pure] at h
  rcases mem_bind_trace h with h | ⟨u5, _, h⟩
  · rw [← hv] at h
    simp [M.pure] at h
  · simp [M.pure] at h

/-- The extra-volumes loop only creates directories and copies
files. -/
theorem volumesLoop_events (env : RemoteEnv) (copied : List (PathC × PathC)) :
    ∀ (vs : List (PathC × PathC)) (i : Nat) (e : Ev),
      e ∈ (remoteVolumesLoop env copied vs i).2 →
      (∃ p, e = .createDir p) ∨ (∃ s d, e = .copyFiles s d) := by
  intro vs
  induction vs with
  | nil => intro i e he; simp [remoteVolumesLoop, M.pure] at he
  | cons hd tl ih =>
      intro i e he
      rcases hd with ⟨src, dst⟩
      simp only [remoteVolumesLoop] at he
      rcases mem_bind_trace he with h | ⟨u, _, h⟩
      · split at h
        · simp [M.pure] at h
        · rcases mem_bind_trace h with h | ⟨u2, _, h⟩
          · split at h
            · rcases mem_bind_trace h with h | ⟨u3, _, h⟩
              · simp [emit] at h
                exact Or.inl ⟨_, h⟩
              · simp [M.pure] at h
            · simp [M.pure] at h
          · rcases mem_bind_trace h with h | ⟨u3, _, h⟩
            · simp [emit] at h
              exact Or.inr ⟨_, _, h⟩
            · simp [M.pure] at h
      · exact ih (i + 1) e h

/-- Steps 4--7 only perform staging-class engine calls: in particular
they never stop, remove, or start containers and never remove or create
volumes. -/
theorem s47_events (env : RemoteEnv) (inp : RemoteInput) (v : VolumeId) :
    ∀ e ∈ (remoteSteps47 env inp v).2, stageEv e = true := by
  intro e he
  simp only [remoteSteps47] at he
  rcases mem_bind_trace he with h | ⟨u0, _, h⟩
  · split at h
    · rcases mem_bind_trace h with h | ⟨u1, _, h⟩
      · simp [emit] at h
        simp [h, stageEv]
      · rcases mem_bind_trace h with h | ⟨u2, _, h⟩
        · simp [emit] at h
          simp [h, stageEv]
        · rcases mem_bind_trace h with h | ⟨u3, _, h⟩
          · simp [emit] at h
            simp [h, stageEv]
          · simp [M.pure] at h
    · simp [M.pure] at h
  rcases mem_bind_trace h with h | ⟨mr, _, h⟩
  · split at h
    · split at h
      · rcases mem_bind_trace h with h | ⟨u4, _, h⟩
        · simp [emit] at h
          simp [h, stageEv]
        · simp [M.pure] at h
      · simp [M.pure] at h
    · simp [M.pure] at h
  rcases mem_bind_trace h with h | ⟨u5, _, h⟩
  · simp [emit] at h
    simp [h, stageEv]
  rcases mem_bind_trace h with h | ⟨ct, _, h⟩
  · simp [liftE] at h
  rcases mem_bind_trace h with h | ⟨cp2, _, h⟩
  · split at h
    · simp [M.pure] at h
    · split at h
      · rcases mem_bind_trace h with h | ⟨u6, _, h⟩
        · simp [emit] at h
          simp [h, stageEv]
        · simp [M.pure] at h
      · rcases mem_bind_trace h with h | ⟨u6, _, h⟩
        · simp [emit] at h
          simp [h, stageEv]
        · simp [M.pure] at h
  rcases mem_bind_trace h with h | ⟨u7, _, h⟩
  · rcases volumesLoop_events env cp2 inp.volumes 0 e h with ⟨p, hp⟩ | ⟨s, d, hsd⟩
    · simp [hp, stageEv]
    · simp [hsd, stageEv]
  rcases mem_bind_trace h with h | ⟨u8, _, h⟩
  · simp [emit] at h
    simp [h, stageEv]
  rcases mem_bind_trace h with h | ⟨stt, _, h⟩
  · simp [capture, emit] at h
    simp [h, stageEv]
  rcases mem_bind_trace h with h | ⟨u9, _, h⟩
  · simp [emit] at h
    simp [h, stageEv]
  · simp [liftE] at h



/-- With a `Keep` volume, steps 4--7 perform no xargo, cargo, or rust
staging copy: every event is a directory creation, a file copy, or one
of the exec/copy-back calls. -/
theorem s47_keep_events (env : RemoteEnv) (inp : RemoteInput) (k : String) :
    ∀ e ∈ (remoteSteps47 env inp (.Keep k)).2,
      ((∃ p, e = .createDir p) ∨ (∃ s d, e = .copyFiles s d) ∨
        e = .execSymlink ∨ e = .execCargo ∨ e = .copyBack) := by
  intro e he
  simp only [remoteSteps47] at he
  rcases mem_bind_trace he with h | ⟨u0, _, h⟩
  · simp [M.pure] at h
  rcases mem_bind_trace h with h | ⟨mr, _, h⟩
  · split at h
    · split at h
      · rcases mem_bind_trace h with h | ⟨u4, _, h⟩
        · simp [emit] at h
          exact Or.inl ⟨_, h⟩
        · simp [M.pure] at h
      · simp [M.pure] at h
    · simp [M.pure] at h
  rcases mem_bind_trace h with h | ⟨u5, _, h⟩
  · simp [emit] at h
    exact Or.inr (Or.inl ⟨_, _, h⟩)
  rcases mem_bind_trace h with h | ⟨ct, _, h⟩
  · simp [liftE] at h
  rcases mem_bind_trace h with h | ⟨cp2, _, h⟩
  · split at h
    · simp [M.pure] at h
    · split at h
      · rcases mem_bind_trace h with h | ⟨u6, _, h⟩
        · simp [emit] at h
          exact Or.inr (Or.inl ⟨_, _, h⟩)
        · simp [M.pure] at h
      · rcases mem_bind_trace h with h | ⟨u6, _, h⟩
        · simp [emit] at h
          exact Or.inl ⟨_, h⟩
        · simp [M.pure] at h
  rcases mem_bind_trace h with h | ⟨u7, _, h⟩
  · exact Or.imp id (fun hc => Or.inl hc)
      (volumesLoop_events env cp2 inp.volumes 0 e h)
  rcases mem_bind_trace h with h | ⟨u8, _, h⟩
  · simp [emit] at h
    exact Or.inr (Or.inr (Or.inl h))
  rcases mem_bind_trace h with h | ⟨stt, _, h⟩
  · simp [capture, emit] at h
    exact Or.inr (Or.inr (Or.inr (Or.inl h)))
  rcases mem_bind_trace h with h | ⟨u9, _, h⟩
  · simp [emit] at h
    exact Or.inr (Or.inr (Or.inr (Or.inr h)))
  · simp [liftE] at h

/-- With a `Discard` volume, steps 4--7 stage the xargo home first,
then (on success) the cargo home, then (on success) the sysroot. -/
theorem s47_discard_stages (env : RemoteEnv) (inp : RemoteInput) (id : String) :
    Ev.copyXargo ∈ (remoteSteps47 env inp (.Discard id)).2 ∧
    ((env.xargoCopy).isOk = true →
      Ev.copyCargo ∈ (remoteSteps47 env inp (.Discard id)).2) ∧
    ((env.xargoCopy).isOk = true → (env.cargoCopy).isOk = true →
      Ev.copyRust ∈ (remoteSteps47 env inp (.Discard id)).2) := by
  refine ⟨?_, ?_, ?_⟩
  · show Ev.copyXargo ∈ (M.bind _ _).2
    apply mem_bind_left
    apply mem_bind_left
    simp [emit]
  · intro hx
    rcases hxv : env.xargoCopy with e | s
    · rw [hxv] at hx
      simp [Except.isOk, Except.toBool] at hx
    · show Ev.copyCargo ∈ (M.bind _ _).2
      apply mem_bind_left
      apply mem_bind_right (a := s)
      · simp [emit, hxv]
      · apply mem_bind_left
        simp [emit]
  · intro hx hc
    rcases hxv : env.xargoCopy with e | s
    · rw [hxv] at hx
      simp [Except.isOk, Except.toBool] at hx
    · rcases hcv : env.cargoCopy with e | s2
      · rw [hcv] at hc
        simp [Except.isOk, Except.toBool] at hc
      · show Ev.copyRust ∈ (M.bind _ _).2
        apply mem_bind_left
        apply mem_bind_right (a := s)
        · simp [emit, hxv]
        · apply mem_bind_right (a := s2)
          · simp [emit, hcv]
          · apply mem_bind_left
            simp [emit]

/-- The extra-volumes loop does not read the guard oracle fields. -/
theorem volumesLoop_guards (env : RemoteEnv) (g1 g2 g3 : Except Err Bool)
    (copied : List (PathC × PathC)) :
    ∀ (vs : List (PathC × PathC)) (i : Nat),
      remoteVolumesLoop { env with guardStop := g1, guardRm := g2, guardVolRm := g3 }
          copied vs i =
        remoteVolumesLoop env copied vs i := by
  intro vs
  induction vs with
  | nil => intro i; rfl
  | cons hd tl ih =>
      intro i
      rcases hd with ⟨src, dst⟩
      simp only [remoteVolumesLoop, ih]

/-- Reconciliation does not read the guard oracle fields. -/
theorem reconcile_guards (env : RemoteEnv) (inp : RemoteInput)
    (g1 g2 g3 : Except Err Bool) :
    remoteReconcile { env with guardStop := g1, guardRm := g2, guardVolRm := g3 }
        inp = remoteReconcile env inp := rfl

/-- Volume creation does not read the guard oracle fields. -/
theorem volCreate_guards (env : RemoteEnv) (v : VolumeId)
    (g1 g2 g3 : Except Err Bool) :
    remoteVolumeCreate { env with guardStop := g1, guardRm := g2, guardVolRm := g3 }
        v = remoteVolumeCreate env v := by
  cases v <;> rfl

/-- Steps 4--7 do not read the guard oracle fields. -/
theorem s47_guards (env : RemoteEnv) (inp : RemoteInput) (v : VolumeId)
    (g1 g2 g3 : Except Err Bool) :
    remoteSteps47 { env with guardStop := g1, guardRm := g2, guardVolRm := g3 }
        inp v = remoteSteps47 env inp v := by
  cases v <;> simp only [remoteSteps47, volumesLoop_guards]



/-- The container drop guard's observable behaviour is independent of
the guard oracle fields: the calls happen, their outcomes are
discarded. -/
theorem dropC_guards (env : RemoteEnv) (c : String) (g1 g2 g3 : Except Err Bool) :
    deleteContainerDrop { env with guardStop := g1, guardRm := g2, guardVolRm := g3 }
        c = deleteContainerDrop env c := rfl

/-- The volume drop guard's observable behaviour is independent of
the guard oracle fields. -/
theorem dropV_guards (env : RemoteEnv) (v : VolumeId) (g1 g2 g3 : Except Err Bool) :
    deleteVolumeDrop { env with guardStop := g1, guardRm := g2, guardVolRm := g3 }
        v = deleteVolumeDrop env v := by
  cases v <;> rfl

/-- The outcome and trace of `remote_run` are unchanged under any
outcomes of the guard operations: guard errors are suppressed and can
never replace the primary result. -/
theorem remote_run_guards_inv (env : RemoteEnv) (inp : RemoteInput)
    (g1 g2 g3 : Except Err Bool) :
    remote_run { env with guardStop := g1, guardRm := g2, guardVolRm := g3 } inp
      = remote_run env inp := by
  simp only [remote_run, reconcile_guards, volCreate_guards, s47_guards,
    dropC_guards, dropV_guards]



/-- C1: on scope exit of a remote run --- whether it completes or
returns early with an error --- the guards run in reverse acquisition
order: once the placeholder container was started successfully, the
trace ends with stop-container, remove-container and then, exactly when
the volume identity is Discard, remove-volume; a `Keep` volume is never
removed anywhere in the run; when only the volume guard is active the
trace ends with remove-volume alone; and the primary result is
independent of the outcomes of all guard operations. -/
theorem remote_run_guard_lifecycle (env : RemoteEnv) (inp : RemoteInput)
    (c : String) (b : Bool)
    (hi : inp.identifier = .ok c) (hk : env.keepExists = .ok b) :
    (∀ g1 g2 g3 : Except Err Bool,
      remote_run { env with guardStop := g1, guardRm := g2, guardVolRm := g3 }
          inp = remote_run env inp) ∧
    (b = true → ∀ n, Ev.volumeRm n ∉ (remote_run env inp).2) ∧
    (b = true → Ev.containerRun c ∈ (remote_run env inp).2 →
      (env.runContainer).isOk = true →
      ∃ pre, (remote_run env inp).2 =
        pre ++ [Ev.containerStop c, Ev.containerRm c]) ∧
    (b = false → Ev.containerRun c ∈ (remote_run env inp).2 →
      (env.runContainer).isOk = true →
      ∃ pre, (remote_run env inp).2 =
        pre ++ [Ev.containerStop c, Ev.containerRm c, Ev.volumeRm c]) ∧
    (b = false → Ev.volumeCreate c ∈ (remote_run env inp).2 →
      (env.volCreate).isOk = true →
      (Ev.containerRun c ∉ (remote_run env inp).2 ∨
        (env.runContainer).isOk = false) →
      ∃ pre, (remote_run env inp).2 = pre ++ [Ev.volumeRm c]) := by
  rcases hrec : remoteReconcile env inp with ⟨r1, t1⟩
  have hRT : (remoteReconcile env inp).2 = t1 := by rw [hrec]
  refine ⟨fun g1 g2 g3 => remote_run_guards_inv env inp g1 g2 g3, ?_⟩
  cases r1 with
  | error e1 =>
      have hT : (remote_run env inp).2 = t1 := by
        simp only [remote_run, hrec, M.bind]
      refine ⟨?_, ?_, ?_, ?_⟩
      · intro hb n hmem
        rw [hT] at hmem
        exact reconcile_keep env inp (hb ▸ hk) n (hRT ▸ hmem)
      · intro _ hrunm _
        rw [hT] at hrunm
        have h2 := reconcile_events env inp _ (hRT ▸ hrunm)
        simp [reconEv] at h2
      · intro _ hrunm _
        rw [hT] at hrunm
        have h2 := reconcile_events env inp _ (hRT ▸ hrunm)
        simp [reconEv] at h2
      · intro _ hcrem _ _
        rw [hT] at hcrem
        have h2 := reconcile_events env inp _ (hRT ▸ hcrem)
        simp [reconEv] at h2
  | ok vc =>
      have hvc := reconcile_result env inp c b hi hk vc (by rw [hrec])
      cases b with
      | true =>
          rw [if_pos rfl] at hvc
          subst hvc
          have hnoRm : ∀ n, Ev.volumeRm n ∉ t1 := fun n =>
            hRT ▸ reconcile_keep env inp hk n
          cases himg : inp.imageResult with
          | error e2 =>
              have hT : (remote_run env inp).2 = t1 := by
                simp only [remote_run, hrec, himg, M.bind, liftE, emit, M.pure,
                  withGuard, remoteVolumeCreate, deleteVolumeDrop,
                  deleteContainerDrop, ignoreRes, List.append_nil,
                  List.nil_append]
              refine ⟨?_, ?_, ?_, ?_⟩
              · intro _ n hmem
                rw [hT] at hmem
                exact hnoRm n hmem
              · intro _ hrunm _
                rw [hT] at hrunm
                have h2 := reconcile_events env inp _ (hRT ▸ hrunm)
                simp [reconEv] at h2
              · intro hb
                simp at hb
              · intro hb
                simp at hb
          | ok img =>
              cases hrun : env.runContainer with
              | error e3 =>
                  have hT : (remote_run env inp).2 = t1 ++ [Ev.containerRun c] := by
                    simp only [remote_run, hrec, himg, hrun, M.bind, liftE,
                      emit, M.pure, withGuard, remoteVolumeCreate,
                      deleteVolumeDrop, deleteContainerDrop, ignoreRes,
                      List.append_nil, List.nil_append]
                  refine ⟨?_, ?_, ?_, ?_⟩
                  · intro _ n hmem
                    rw [hT] at hmem
                    rcases List.mem_append.mp hmem with h | h
                    · exact hnoRm n h
                    · simp at h
                  · intro _ _ hok
                    simp [Except.isOk, Except.toBool] at hok
                  · intro hb
                    simp at hb
                  · intro hb
                    simp at hb
              | ok s3 =>
                  have hT : (remote_run env inp).2 = t1 ++
                      ([Ev.containerRun c] ++
                        ((remoteSteps47 env inp
                            (VolumeId.Keep (c ++ "-keep"))).2 ++
                          ([Ev.containerStop c] ++ [Ev.containerRm c]))) := by
                    simp only [remote_run, hrec, himg, hrun, M.bind, liftE,
                      emit, M.pure, withGuard, remoteVolumeCreate,
                      deleteVolumeDrop, deleteContainerDrop, ignoreRes,
                      List.append_nil, List.nil_append]
                  refine ⟨?_, ?_, ?_, ?_⟩
                  · intro _ n hmem
                    rw [hT] at hmem
                    rcases List.mem_append.mp hmem with h | h
                    · exact hnoRm n h
                    rcases List.mem_append.mp h with h | h
                    · simp at h
                    rcases List.mem_append.mp h with h | h
                    · have h2 := s47_events env inp _ _ h
                      simp [stageEv] at h2
                    · simp at h
                  · intro _ _ _
                    refine ⟨t1 ++ ([Ev.containerRun c] ++
                      (remoteSteps47 env inp
                        (VolumeId.Keep (c ++ "-keep"))).2), ?_⟩
                    rw [hT]
                    simp
                  · intro hb
                    simp at hb
                  · intro hb
                    simp at hb
      | false =>
          rw [if_neg (by simp)] at hvc
          subst hvc
          cases hcre : env.volCreate with
          | error e2 =>
              have hT : (remote_run env inp).2 = t1 ++ [Ev.volumeCreate c] := by
                simp only [remote_run, hrec, hcre, M.bind, liftE, emit, M.pure,
                  withGuard, remoteVolumeCreate, deleteVolumeDrop,
                  deleteContainerDrop, ignoreRes, List.append_nil,
                  List.nil_append]
              refine ⟨?_, ?_, ?_, ?_⟩
              · intro hb
                simp at hb
              · intro hb
                simp at hb
              · intro _ hrunm _
                rw [hT] at hrunm
                rcases List.mem_append.mp hrunm with h | h
                · have h2 := reconcile_events env inp _ (hRT ▸ h)
                  simp [reconEv] at h2
                · simp at h
              · intro _ _ hok _
                simp [Except.isOk, Except.toBool] at hok
          | ok s2 =>
              cases himg : inp.imageResult with
              | error e2 =>
                  have hT : (remote_run env inp).2 = t1 ++
                      ([Ev.volumeCreate c] ++ [Ev.volumeRm c]) := by
                    simp only [remote_run, hrec, hcre, himg, M.bind, liftE,
                      emit, M.pure, withGuard, remoteVolumeCreate,
                      deleteVolumeDrop, deleteContainerDrop, ignoreRes,
                      List.append_nil, List.nil_append]
                  refine ⟨?_, ?_, ?_, ?_⟩
                  · intro hb
                    simp at hb
                  · intro hb
                    simp at hb
                  · intro _ hrunm _
                    rw [hT] at hrunm
                    rcases List.mem_append.mp hrunm with h | h
                    · have h2 := reconcile_events env inp _ (hRT ▸ h)
                      simp [reconEv] at h2
                    · simp at h
                  · intro _ _ _ _
                    refine ⟨t1 ++ [Ev.volumeCreate c], ?_⟩
                    rw [hT]
                    simp
              | ok img =>
                  cases hrun : env.runContainer with
                  | error e3 =>
                      have hT : (remote_run env inp).2 = t1 ++
                          ([Ev.volumeCreate c] ++
                            ([Ev.containerRun c] ++ [Ev.volumeRm c])) := by
                        simp only [remote_run, hrec, hcre, himg, hrun, M.bind,
                          liftE, emit, M.pure, withGuard, remoteVolumeCreate,
                          deleteVolumeDrop, deleteContainerDrop, ignoreRes,
                          List.append_nil, List.nil_append]
                      refine ⟨?_, ?_, ?_, ?_⟩
                      · intro hb
                        simp at hb
                      · intro hb
                        simp at hb
                      · intro _ _ hok
                        simp [Except.isOk, Except.toBool] at hok
                      · intro _ _ _ _
                        refine ⟨t1 ++ ([Ev.volumeCreate c] ++
                          [Ev.containerRun c]), ?_⟩
                        rw [hT]
                        simp
                  | ok s3 =>
                      have hT : (remote_run env inp).2 = t1 ++
                          ([Ev.volumeCreate c] ++
                            (([Ev.containerRun c] ++
                              ((remoteSteps47 env inp (VolumeId.Discard c)).2 ++
                                ([Ev.containerStop c] ++ [Ev.containerRm c]))) ++
                              [Ev.volumeRm c])) := by
                        simp only [remote_run, hrec, hcre, himg, hrun, M.bind,
                          liftE, emit, M.pure, withGuard, remoteVolumeCreate,
                          deleteVolumeDrop, deleteContainerDrop, ignoreRes,
                          List.append_nil, List.nil_append]
                      refine ⟨?_, ?_, ?_, ?_⟩
                      · intro hb
                        simp at hb
                      · intro hb
                        simp at hb
                      · intro _ _ _
                        refine ⟨t1 ++ ([Ev.volumeCreate c] ++
                          ([Ev.containerRun c] ++
                            (remoteSteps47 env inp (VolumeId.Discard c)).2)), ?_⟩
                        rw [hT]
                        simp
                      · intro _ _ _ hdis
                        rcases hdis with hni | hok
                        · exfalso
                          apply hni
                          rw [hT]
                          simp
                        · simp [Except.isOk, Except.toBool] at hok



/-- C10: the staging copies of the xargo home, cargo home and
toolchain sysroot are performed only when the selected volume identity
is Discard: with a pre-existing `Keep` volume none of the three staging
copies ever appears in the trace, while with a `Discard` volume (once
the placeholder container started) the xargo staging copy runs, then on
its success the cargo staging copy, then on its success the sysroot
staging copy. -/
theorem remote_run_staging_conditional (env : RemoteEnv) (inp : RemoteInput)
    (c : String) (b : Bool)
    (hi : inp.identifier = .ok c) (hk : env.keepExists = .ok b) :
    (b = true → Ev.copyXargo ∉ (remote_run env inp).2 ∧
      Ev.copyCargo ∉ (remote_run env inp).2 ∧
      Ev.copyRust ∉ (remote_run env inp).2) ∧
    (b = false → Ev.containerRun c ∈ (remote_run env inp).2 →
      (env.runContainer).isOk = true →
      Ev.copyXargo ∈ (remote_run env inp).2 ∧
      ((env.xargoCopy).isOk = true → Ev.copyCargo ∈ (remote_run env inp).2) ∧
      ((env.xargoCopy).isOk = true → (env.cargoCopy).isOk = true →
        Ev.copyRust ∈ (remote_run env inp).2)) := by
  rcases hrec : remoteReconcile env inp with ⟨r1, t1⟩
  have hRT : (remoteReconcile env inp).2 = t1 := by rw [hrec]
  have hT1 : ∀ e ∈ t1, reconEv e = true := fun e he =>
    reconcile_events env inp e (hRT ▸ he)
  cases r1 with
  | error e1 =>
      have hT : (remote_run env inp).2 = t1 := by
        simp only [remote_run, hrec, M.bind]
      constructor
      · intro _
        rw [hT]
        refine ⟨fun h => ?_, fun h => ?_, fun h => ?_⟩ <;>
          · have h2 := hT1 _ h
            simp [reconEv] at h2
      · intro _ hrunm _
        rw [hT] at hrunm
        have h2 := hT1 _ hrunm
        simp [reconEv] at h2
  | ok vc =>
      have hvc := reconcile_result env inp c b hi hk vc (by rw [hrec])
      cases b with
      | true =>
          rw [if_pos rfl] at hvc
          subst hvc
          refine ⟨fun _ => ?_, fun hb => by simp at hb⟩
          cases himg : inp.imageResult with
          | error e2 =>
              have hT : (remote_run env inp).2 = t1 := by
                simp only [remote_run, hrec, himg, M.bind, liftE, emit, M.pure,
                  withGuard, remoteVolumeCreate, deleteVolumeDrop,
                  deleteContainerDrop, ignoreRes, List.append_nil,
                  List.nil_append]
              rw [hT]
              refine ⟨fun h => ?_, fun h => ?_, fun h => ?_⟩ <;>
                · have h2 := hT1 _ h
                  simp [reconEv] at h2
          | ok img =>
              cases hrun : env.runContainer with
              | error e3 =>
                  have hT : (remote_run env inp).2 =
                      t1 ++ [Ev.containerRun c] := by
                    simp only [remote_run, hrec, himg, hrun, M.bind, liftE,
                      emit, M.pure, withGuard, remoteVolumeCreate,
                      deleteVolumeDrop, deleteContainerDrop, ignoreRes,
                      List.append_nil, List.nil_append]
                  rw [hT]
                  refine ⟨fun h => ?_, fun h => ?_, fun h => ?_⟩ <;>
                    · rcases List.mem_append.mp h with h | h
                      · have h2 := hT1 _ h
                        simp [reconEv] at h2
                      · simp at h
              | ok s3 =>
                  have hT : (remote_run env inp).2 = t1 ++
                      ([Ev.containerRun c] ++
                        ((remoteSteps47 env inp
                            (VolumeId.Keep (c ++ "-keep"))).2 ++
                          ([Ev.containerStop c] ++ [Ev.containerRm c]))) := by
                    simp only [remote_run, hrec, himg, hrun, M.bind, liftE,
                      emit, M.pure, withGuard, remoteVolumeCreate,
                      deleteVolumeDrop, deleteContainerDrop, ignoreRes,
                      List.append_nil, List.nil_append]
                  rw [hT]
                  refine ⟨fun h => ?_, fun h => ?_, fun h => ?_⟩ <;>
                    · rcases List.mem_append.mp h with h | h
                      · have h2 := hT1 _ h
                        simp [reconEv] at h2
                      rcases List.mem_append.mp h with h | h
                      · simp at h
                      rcases List.mem_append.mp h with h | h
                      · have h2 := s47_keep_events env inp _ _ h
                        simp at h2
                      · simp at h
      | false =>
          rw [if_neg (by simp)] at hvc
          subst hvc
          refine ⟨fun hb => by simp at hb, fun _ => ?_⟩
          cases hcre : env.volCreate with
          | error e2 =>
              have hT : (remote_run env inp).2 = t1 ++ [Ev.volumeCreate c] := by
                simp only [remote_run, hrec, hcre, M.bind, liftE, emit, M.pure,
                  withGuard, remoteVolumeCreate, deleteVolumeDrop,
                  deleteContainerDrop, ignoreRes, List.append_nil,
                  List.nil_append]
              intro hrunm _
              rw [hT] at hrunm
              rcases List.mem_append.mp hrunm with h | h
              · have h2 := hT1 _ h
                simp [reconEv] at h2
              · simp at h
          | ok s2 =>
              cases himg : inp.imageResult with
              | error e2 =>
                  have hT : (remote_run env inp).2 = t1 ++
                      ([Ev.volumeCreate c] ++ [Ev.volumeRm c]) := by
                    simp only [remote_run, hrec, hcre, himg, M.bind, liftE,
                      emit, M.pure, withGuard, remoteVolumeCreate,
                      deleteVolumeDrop, deleteContainerDrop, ignoreRes,
                      List.append_nil, List.nil_append]
                  intro hrunm _
                  rw [hT] at hrunm
                  rcases List.mem_append.mp hrunm with h | h
                  · have h2 := hT1 _ h
                    simp [reconEv] at h2
                  · simp at h
              | ok img =>
                  cases hrun : env.runContainer with
                  | error e3 =>
                      intro _ hok
                      simp [Except.isOk, Except.toBool] at hok
                  | ok s3 =>
                      have hT : (remote_run env inp).2 = t1 ++
                          ([Ev.volumeCreate c] ++
                            (([Ev.containerRun c] ++
                              ((remoteSteps47 env inp (VolumeId.Discard c)).2 ++
                                ([Ev.containerStop c] ++ [Ev.containerRm c]))) ++
                              [Ev.volumeRm c])) := by
                        simp only [remote_run, hrec, hcre, himg, hrun, M.bind,
                          liftE, emit, M.pure, withGuard, remoteVolumeCreate,
                          deleteVolumeDrop, deleteContainerDrop, ignoreRes,
                          List.append_nil, List.nil_append]
                      intro _ _
                      obtain ⟨hx, hcg, hrs⟩ := s47_discard_stages env inp c
                      rw [hT]
                      refine ⟨?_, fun h1 => ?_, fun h1 h2 => ?_⟩
                      · exact List.mem_append_right _ (List.mem_append_right _
                          (List.mem_append_left _ (List.mem_append_right _
                            (List.mem_append_left _ hx))))
                      · exact List.mem_append_right _ (List.mem_append_right _
                          (List.mem_append_left _ (List.mem_append_right _
                            (List.mem_append_left _ (hcg h1)))))
                      · exact List.mem_append_right _ (List.mem_append_right _
                          (List.mem_append_left _ (List.mem_append_right _
                            (List.mem_append_left _ (hrs h1 h2)))))

/-- Witness for C1: on a concrete all-successful run with a `Discard`
volume, the trace ends with stop-container, remove-container,
remove-volume. -/
theorem remote_run_guard_lifecycle_witness :
    ∃ pre, (remote_run envW inpW).2 =
      pre ++ [Ev.containerStop "cid", Ev.containerRm "cid", Ev.volumeRm "cid"] :=
  (remote_run_guard_lifecycle envW inpW "cid" false rfl rfl).2.2.2.1
    rfl (by decide) rfl

/-- Witness for C10: on a concrete all-successful run with a `Discard`
volume, all three staging copies appear in the trace. -/
theorem remote_run_staging_conditional_witness :
    Ev.copyXargo ∈ (remote_run envW inpW).2 ∧
    Ev.copyCargo ∈ (remote_run envW inpW).2 ∧
    Ev.copyRust ∈ (remote_run envW inpW).2 := by
  obtain ⟨h1, h2, h3⟩ :=
    (remote_run_staging_conditional envW inpW "cid" false rfl rfl).2
      rfl (by decide) rfl
  exact ⟨h1, h2 rfl, h3 rfl rfl⟩

end Cross
